import Mathlib

/-!
Verification of the terminal calorie tracker's core: the macro estimator
(nutrition-utils), the daily ledger aggregator (logMeal / editEntry /
deleteEntry), the weekly report, the goal-adherence streak, the food
catalog with its in-memory cache, and the missing-config fallback.

Numbers are modelled as exact rationals (ℚ); JavaScript `Math.round` is
modelled as `jsRound q = ⌊q + 1/2⌋` (round half toward +∞, as in JS).
Fallible paths return `Except`/`Option`: a thrown TypeError or a rejected
persistence write is an `error` outcome that leaves the state unchanged,
matching the surrounding interactive loop, which catches errors and
continues without writing.  Mongo document ids are modelled as `Nat`
counters carried in the state; calendar dates as `Int` day numbers.
-/

/-- JavaScript `Math.round`: round half up, i.e. `⌊q + 1/2⌋`. -/
def jsRound (q : ℚ) : ℤ := ⌊q + 1/2⌋

/-- One row of the fixed ratio table in `estimateMacros`. -/
structure MacroRatios where
  protein : ℚ
  carbs : ℚ
  fat : ℚ
deriving DecidableEq, Repr

/-- The `ratios` object literal inside `estimateMacros`: a lookup that
yields no row for a key outside the four known categories. -/
def ratios (category : String) : Option MacroRatios :=
  if category = "protein-heavy" then some ⟨0.4, 0.2, 0.3⟩
  else if category = "carb-heavy" then some ⟨0.15, 0.7, 0.15⟩
  else if category = "fat-heavy" then some ⟨0.1, 0.1, 0.8⟩
  else if category = "mixed" then some ⟨0.3, 0.4, 0.3⟩
  else none

/-- Result of `estimateMacros`: estimated grams of each macronutrient. -/
structure MacroEstimate where
  protein : ℤ
  carbs : ℤ
  fat : ℤ
deriving DecidableEq, Repr

/-- `estimateMacros(totalKcal, category = 'mixed')` from nutrition-utils.
The `category` argument is `Option String`: `none` models an omitted
argument (JS default parameter `'mixed'`).  For an unknown category
string the table lookup comes back empty and the subsequent field access
`r.protein` throws a TypeError; that crash is the `none` result. -/
def estimateMacros (totalKcal : ℚ) (category : Option String) : Option MacroEstimate :=
  let cat := category.getD "mixed"
  (ratios cat).map fun r =>
    ⟨jsRound (totalKcal * r.protein / 4),
     jsRound (totalKcal * r.carbs / 4),
     jsRound (totalKcal * r.fat / 9)⟩

/-- `calculateCaloriesFromMacros(protein, carbs, fat)` from
nutrition-utils: `Math.round(protein*4 + carbs*4 + fat*9)`. -/
def calculateCaloriesFromMacros (protein carbs fat : ℚ) : ℤ :=
  jsRound (protein * 4 + carbs * 4 + fat * 9)

lemma ratios_protein_heavy : ratios "protein-heavy" = some ⟨0.4, 0.2, 0.3⟩ := rfl

lemma ratios_carb_heavy : ratios "carb-heavy" = some ⟨0.15, 0.7, 0.15⟩ := rfl

lemma ratios_fat_heavy : ratios "fat-heavy" = some ⟨0.1, 0.1, 0.8⟩ := rfl

lemma ratios_mixed : ratios "mixed" = some ⟨0.3, 0.4, 0.3⟩ := rfl

/-- The `user_settings` Config document (`dailyGoal`). -/
structure Config where
  dailyGoal : ℚ
deriving DecidableEq, Repr

/-- A document of the `foods` collection, as used by index.js (name is
covered by a unique index; macros filled in by `estimateMacros`). -/
structure Food where
  id : Nat
  name : String
  kcal : ℚ
  protein : ℚ
  carbs : ℚ
  fat : ℚ
  category : String
deriving DecidableEq, Repr

/-- One element of a `Log` document's `entries` array. -/
structure LogEntry where
  id : Nat
  name : String
  kcal : ℚ
  protein : ℚ
  carbs : ℚ
  fat : ℚ
  time : String
  timeSlot : String
deriving DecidableEq, Repr

/-- A document of the `logs` collection: one day's entries and running
totals. -/
structure DailyLog where
  date : Int
  entries : List LogEntry
  totalKcal : ℚ
  totalProtein : ℚ
  totalCarbs : ℚ
  totalFat : ℚ
deriving DecidableEq, Repr

/-- The whole persistent + in-memory state touched by the program: the
`foods` collection, its in-memory cache `foodCache`, the `logs`
collection, the singleton config, and fresh-id counters standing in for
Mongo ObjectId generation. -/
structure AppState where
  foods : List Food
  foodCache : List Food
  logs : List DailyLog
  nextEntryId : Nat
  nextFoodId : Nat
  config : Option Config
deriving DecidableEq, Repr

/-- Update the first element satisfying `p` (Mongo's `updateOne` /
`findOneAndUpdate` touch a single matching document). -/
def updateFirst {α : Type} (p : α → Bool) (f : α → α) : List α → List α
  | [] => []
  | x :: xs => if p x then f x :: xs else x :: updateFirst p f xs

/-- The entry object built inside `logMeal`: a field-by-field copy of the
food at the moment of logging. -/
def snapshotEntry (food : Food) (time timeSlot : String) (eid : Nat) : LogEntry :=
  { id := eid, name := food.name, kcal := food.kcal, protein := food.protein,
    carbs := food.carbs, fat := food.fat, time := time, timeSlot := timeSlot }

/-- The `$push` + `$inc` part of `logMeal`'s `findOneAndUpdate`. -/
def pushEntry (log : DailyLog) (e : LogEntry) : DailyLog :=
  { log with
    entries := log.entries ++ [e],
    totalKcal := log.totalKcal + e.kcal,
    totalProtein := log.totalProtein + e.protein,
    totalCarbs := log.totalCarbs + e.carbs,
    totalFat := log.totalFat + e.fat }

/-- `logMeal(food, timeSlot)`: atomic upsert + append + increment on
today's log.  On insert the totals start from their schema default 0 and
are then incremented, so the fresh log carries exactly the entry's
values. -/
def logMeal (s : AppState) (today : Int) (food : Food) (time timeSlot : String) : AppState :=
  let e := snapshotEntry food time timeSlot s.nextEntryId
  let logs' :=
    if s.logs.any (fun l => l.date == today) then
      updateFirst (fun l => l.date == today) (fun l => pushEntry l e) s.logs
    else
      s.logs ++ [{ date := today, entries := [e], totalKcal := e.kcal,
                   totalProtein := e.protein, totalCarbs := e.carbs, totalFat := e.fat }]
  { s with logs := logs', nextEntryId := s.nextEntryId + 1 }

/-- How a ledger mutation can fail: the selected entry id is absent from
the day's entries (the `find` in `editEntry`/`deleteEntry` comes back
empty and the function returns without writing), or `estimateMacros`
throws on an unknown category before any write happens. -/
inductive LedgerError where
  | EntryNotFound
  | BadCategory
deriving DecidableEq, Repr

/-- `editEntry`: locate today's log and the entry by id, recompute macros
for the new kcal/category, then apply one atomic update that rewrites the
matching array element (`$set` with an `arrayFilters` id filter) and
increments the four totals by the new−old deltas. -/
def editEntry (s : AppState) (date : Int) (entryId : Nat) (newName : String)
    (newKcal : ℚ) (newCategory : String) : Except LedgerError AppState :=
  match s.logs.find? (fun l => l.date == date) with
  | none => .error .EntryNotFound
  | some log =>
    match log.entries.find? (fun e => e.id == entryId) with
    | none => .error .EntryNotFound
    | some entryToEdit =>
      match estimateMacros newKcal (some newCategory) with
      | none => .error .BadCategory
      | some m =>
        let newLog : DailyLog :=
          { log with
            entries := log.entries.map (fun e =>
              if e.id == entryId then
                { e with
                    name := newName, kcal := newKcal,
                    protein := (m.protein : ℚ), carbs := (m.carbs : ℚ), fat := (m.fat : ℚ) }
              else e),
            totalKcal := log.totalKcal + (newKcal - entryToEdit.kcal),
            totalProtein := log.totalProtein + ((m.protein : ℚ) - entryToEdit.protein),
            totalCarbs := log.totalCarbs + ((m.carbs : ℚ) - entryToEdit.carbs),
            totalFat := log.totalFat + ((m.fat : ℚ) - entryToEdit.fat) }
        .ok { s with logs := updateFirst (fun l => l.date == date) (fun _ => newLog) s.logs }

/-- `editEntry` as the surrounding loop sees it: a failed call leaves the
store as it was. -/
def editEntryRun (s : AppState) (date : Int) (entryId : Nat) (newName : String)
    (newKcal : ℚ) (newCategory : String) : AppState :=
  match editEntry s date entryId newName newKcal newCategory with
  | .ok s' => s'
  | .error _ => s

/-- `deleteEntry`: locate the entry by id, then one atomic update that
`$pull`s the matching array element and decrements the totals by the
entry's stored (snapshot) values. -/
def deleteEntry (s : AppState) (date : Int) (entryId : Nat) : Except LedgerError AppState :=
  match s.logs.find? (fun l => l.date == date) with
  | none => .error .EntryNotFound
  | some log =>
    match log.entries.find? (fun e => e.id == entryId) with
    | none => .error .EntryNotFound
    | some entryToDelete =>
      let newLog : DailyLog :=
        { log with
          entries := log.entries.filter (fun e => !(e.id == entryId)),
          totalKcal := log.totalKcal - entryToDelete.kcal,
          totalProtein := log.totalProtein - entryToDelete.protein,
          totalCarbs := log.totalCarbs - entryToDelete.carbs,
          totalFat := log.totalFat - entryToDelete.fat }
      .ok { s with logs := updateFirst (fun l => l.date == date) (fun _ => newLog) s.logs }

/-- `deleteEntry` as the surrounding loop sees it. -/
def deleteEntryRun (s : AppState) (date : Int) (entryId : Nat) : AppState :=
  match deleteEntry s date entryId with
  | .ok s' => s'
  | .error _ => s

/-- States reachable from an empty ledger by any sequence of `logMeal`,
`editEntry` and `deleteEntry` calls (with arbitrary arguments, dates and
foods; failed calls leave the state unchanged). -/
inductive Reachable : AppState → Prop where
  | init (foods foodCache : List Food) (nextFoodId : Nat) (config : Option Config) :
      Reachable { foods := foods, foodCache := foodCache, logs := [],
                  nextEntryId := 0, nextFoodId := nextFoodId, config := config }
  | logMeal {s : AppState} (today : Int) (food : Food) (time timeSlot : String) :
      Reachable s → Reachable (logMeal s today food time timeSlot)
  | editEntry {s : AppState} (date : Int) (entryId : Nat) (newName : String)
      (newKcal : ℚ) (newCategory : String) :
      Reachable s → Reachable (editEntryRun s date entryId newName newKcal newCategory)
  | deleteEntry {s : AppState} (date : Int) (entryId : Nat) :
      Reachable s → Reachable (deleteEntryRun s date entryId)

/-- How a catalog mutation can fail: the unique index on `name` rejects
the write (Mongo error code 11000), or `estimateMacros` throws first. -/
inductive CatalogError where
  | DuplicateName
  | BadCategory
deriving DecidableEq, Repr

/-- `newFood.save()`: the `foods` collection enforces a unique index on
`name` (case-sensitive); a duplicate is rejected with error code 11000. -/
def saveFood (foods : List Food) (f : Food) : Except CatalogError (List Food) :=
  if foods.any (fun g => g.name == f.name) then .error .DuplicateName
  else .ok (foods ++ [f])

/-- `createNewFood` (the catalog "learn" operation): estimate macros,
save the new food, and only on success push it onto the in-memory cache.
On a duplicate-name rejection nothing is written anywhere. -/
def createNewFood (s : AppState) (name : String) (kcal : ℚ) (category : String) :
    Except CatalogError (AppState × Food) :=
  match estimateMacros kcal (some category) with
  | none => .error .BadCategory
  | some m =>
    let newFood : Food :=
      { id := s.nextFoodId, name := name, kcal := kcal, protein := (m.protein : ℚ),
        carbs := (m.carbs : ℚ), fat := (m.fat : ℚ), category := category }
    match saveFood s.foods newFood with
    | .error e => .error e
    | .ok foods' =>
      .ok ({ s with
               foods := foods', foodCache := s.foodCache ++ [newFood],
               nextFoodId := s.nextFoodId + 1 }, newFood)

/-- `createNewFood` as the caller sees it: on error the state is as it
was. -/
def createNewFoodRun (s : AppState) (name : String) (kcal : ℚ) (category : String) : AppState :=
  match createNewFood s name kcal category with
  | .ok (s', _) => s'
  | .error _ => s

/-- `editFood`: find the food in the cache, recompute macros, persist a
`$set` on the document, and mirror the same field updates onto the cached
item.  A unique-index rejection of the new name leaves both untouched. -/
def editFood (s : AppState) (foodId : Nat) (newName : String) (newKcal : ℚ)
    (newCategory : String) : AppState :=
  match s.foodCache.find? (fun f => f.id == foodId) with
  | none => s
  | some _ =>
    match estimateMacros newKcal (some newCategory) with
    | none => s
    | some m =>
      if s.foods.any (fun g => g.name == newName && !(g.id == foodId)) then s
      else
        let upd := fun (f : Food) =>
          if f.id == foodId then
            { f with
                name := newName, kcal := newKcal, protein := (m.protein : ℚ),
                carbs := (m.carbs : ℚ), fat := (m.fat : ℚ), category := newCategory }
          else f
        { s with foods := s.foods.map upd, foodCache := s.foodCache.map upd }

/-- `deleteFood`: `deleteOne` by id in the store, then filter the cache
by the same id. -/
def deleteFood (s : AppState) (foodId : Nat) : AppState :=
  match s.foodCache.find? (fun f => f.id == foodId) with
  | none => s
  | some _ =>
    { s with foods := s.foods.filter (fun f => !(f.id == foodId)),
             foodCache := s.foodCache.filter (fun f => !(f.id == foodId)) }

/-- The per-day check inside `calculateStreak`'s loop:
`log && log.totalKcal <= dailyGoal && log.totalKcal > 0`.  The store is a
map from "days before today" (0 = today) to that day's `totalKcal`. -/
def dayQualifies (store : Nat → Option ℚ) (dailyGoal : ℚ) (i : Nat) : Bool :=
  match store i with
  | some k => decide (k ≤ dailyGoal) && decide (0 < k)
  | none => false

/-- The backward scan of `calculateStreak`: `for (let i = 1; i < 365; i++)`
counting consecutive qualifying days and breaking at the first failure.
`fuel` is the number of loop iterations left. -/
def streakLoop (store : Nat → Option ℚ) (dailyGoal : ℚ) : Nat → Nat → Nat
  | _, 0 => 0
  | i, fuel + 1 =>
    if dayQualifies store dailyGoal i then streakLoop store dailyGoal (i + 1) fuel + 1 else 0

/-- `calculateStreak(dailyGoal)`: scan backward from yesterday (at most
364 iterations), then add today separately if its log exists with
`0 < totalKcal ≤ dailyGoal`. -/
def calculateStreak (store : Nat → Option ℚ) (dailyGoal : ℚ) : Nat :=
  let streak := streakLoop store dailyGoal 1 364
  match store 0 with
  | some k => if k ≤ dailyGoal then (if 0 < k then streak + 1 else streak) else streak
  | none => streak

/-- `showWeeklyReport`'s fetch: `Log.find({ date: { $gte: startDate } })`
with `startDate = t - 6`. -/
def weeklyLogs (logs : List DailyLog) (t : Int) : List DailyLog :=
  logs.filter (fun l => decide (t - 6 ≤ l.date))

/-- `showWeeklyReport`'s total: sum of `totalKcal` over every fetched
log. -/
def weeklyTotal (logs : List DailyLog) (t : Int) : ℚ :=
  ((weeklyLogs logs t).map (fun l => l.totalKcal)).sum

/-- `showWeeklyReport`'s average: `logs.length > 0 ? total / logs.length : 0`
over the fetched logs. -/
def weeklyAverage (logs : List DailyLog) (t : Int) : ℚ :=
  if 0 < (weeklyLogs logs t).length then weeklyTotal logs t / ((weeklyLogs logs t).length : ℚ)
  else 0

/-- Modelled from the spec: the total kcal over exactly the last 7
calendar days ending at the reference date (`t - 6 … t`). -/
def windowKcal (logs : List DailyLog) (t : Int) : ℚ :=
  ∑ i in Finset.Icc (t - 6) t, ((logs.filter (fun l => decide (l.date = i))).map (fun l => l.totalKcal)).sum

/-- Modelled from the spec: how many stored logs fall inside that 7-day
window. -/
def windowLogCount (logs : List DailyLog) (t : Int) : ℕ :=
  ∑ i in Finset.Icc (t - 6) t, (logs.filter (fun l => decide (l.date = i))).length

/-- The numbers `showDashboard` renders for the day column. -/
structure DashboardStats where
  dailyGoal : ℚ
  currentKcal : ℚ
  currentProtein : ℚ
  currentCarbs : ℚ
  currentFat : ℚ
  remainingKcal : ℚ
  progress : ℚ
deriving DecidableEq, Repr

/-- `showDashboard`'s data: `dailyGoal = config ? config.dailyGoal : 2000`,
today's totals (0 without a log), remaining and capped progress. -/
def showDashboardStats (config : Option Config) (log : Option DailyLog) : DashboardStats :=
  let dailyGoal := match config with | some c => c.dailyGoal | none => 2000
  let currentKcal := match log with | some l => l.totalKcal | none => 0
  let currentProtein := match log with | some l => l.totalProtein | none => 0
  let currentCarbs := match log with | some l => l.totalCarbs | none => 0
  let currentFat := match log with | some l => l.totalFat | none => 0
  { dailyGoal := dailyGoal, currentKcal := currentKcal, currentProtein := currentProtein,
    currentCarbs := currentCarbs, currentFat := currentFat,
    remainingKcal := dailyGoal - currentKcal,
    progress := min 100 (currentKcal / dailyGoal * 100) }

/-- `viewHistory`'s list rows: one `(date, totalKcal, progress %)` per
log, against `config ? config.dailyGoal : 2000`. -/
def viewHistoryRows (logs : List DailyLog) (config : Option Config) : List (Int × ℚ × ℚ) :=
  let dailyGoal := match config with | some c => c.dailyGoal | none => 2000
  logs.map (fun log => (log.date, log.totalKcal, log.totalKcal / dailyGoal * 100))

/-- `showDayDetail`'s header numbers: `(totalKcal, dailyGoal, progress %)`
against `config ? config.dailyGoal : 2000`. -/
def showDayDetailHeader (log : DailyLog) (config : Option Config) : ℚ × ℚ × ℚ :=
  let dailyGoal := match config with | some c => c.dailyGoal | none => 2000
  (log.totalKcal, dailyGoal, log.totalKcal / dailyGoal * 100)

/-! ### List helper lemmas -/

lemma mem_updateFirst {α : Type} (p : α → Bool) (f : α → α) :
    ∀ (l : List α) (x : α), x ∈ updateFirst p f l → x ∈ l ∨ ∃ y, y ∈ l ∧ x = f y := by
  intro l
  induction l with
  | nil => intro x hx; simp [updateFirst] at hx
  | cons a tl ih =>
    intro x hx
    by_cases ha : p a = true
    · rw [updateFirst, if_pos ha] at hx
      rcases List.mem_cons.mp hx with h | h
      · exact Or.inr ⟨a, List.mem_cons_self a tl, h⟩
      · exact Or.inl (List.mem_cons_of_mem _ h)
    · rw [updateFirst, if_neg ha] at hx
      rcases List.mem_cons.mp hx with h | h
      · exact Or.inl (h ▸ List.mem_cons_self a tl)
      · rcases ih x h with h' | ⟨y, hy, hxy⟩
        · exact Or.inl (List.mem_cons_of_mem _ h')
        · exact Or.inr ⟨y, List.mem_cons_of_mem _ hy, hxy⟩

lemma find?_updateFirst {α : Type} (p : α → Bool) (f : α → α) :
    ∀ (l : List α) (x : α), l.find? p = some x → p (f x) = true →
      (updateFirst p f l).find? p = some (f x) := by
  intro l
  induction l with
  | nil => intro x h _; simp at h
  | cons a tl ih =>
    intro x h hp
    by_cases ha : p a = true
    · rw [List.find?_cons_of_pos _ ha] at h
      have hxa : a = x := by injection h
      rw [updateFirst, if_pos ha, hxa]
      exact List.find?_cons_of_pos _ hp
    · rw [List.find?_cons_of_neg _ (by simpa using ha)] at h
      rw [updateFirst, if_neg ha, List.find?_cons_of_neg _ (by simpa using ha)]
      exact ih x h hp

lemma find?_append_none {α : Type} (p : α → Bool) :
    ∀ (l1 l2 : List α), l1.find? p = none → (l1 ++ l2).find? p = l2.find? p := by
  intro l1
  induction l1 with
  | nil => intro l2 _; rfl
  | cons a tl ih =>
    intro l2 h
    rw [List.find?_cons] at h
    rcases hpa : p a with _ | _
    · rw [List.cons_append, List.find?_cons_of_neg _ (by simp [hpa])]
      rw [hpa] at h
      exact ih l2 h
    · rw [hpa] at h; simp at h

lemma any_false_find?_none {α : Type} (p : α → Bool) (l : List α)
    (h : l.any p = false) : l.find? p = none := by
  rw [List.find?_eq_none]
  intro x hx hpx
  have : l.any p = true := List.any_eq_true.mpr ⟨x, hx, hpx⟩
  rw [h] at this
  exact Bool.false_ne_true this

lemma sum_map_one {α : Type} (l : List α) : (l.map (fun _ => (1 : ℕ))).sum = l.length := by
  induction l with
  | nil => rfl
  | cons a tl ih => simp [ih, Nat.add_comm]

/-! ### jsRound bounds -/

lemma jsRound_le (q : ℚ) : (jsRound q : ℚ) ≤ q + 1/2 := Int.floor_le _

lemma lt_jsRound (q : ℚ) : q - 1/2 < (jsRound q : ℚ) := by
  have h := Int.lt_floor_add_one (q + 1/2)
  unfold jsRound
  linarith

lemma jsRound_intCast (n : ℤ) : jsRound ((n : ℚ)) = n := by
  unfold jsRound
  rw [Int.floor_int_add]
  norm_num

/-- The calorie round-trip drifts by at most 17/2 whenever the ratio row
sums to 1. -/
lemma roundtrip_bound (k rp rc rf : ℚ) (hsum : rp + rc + rf = 1) :
    |((calculateCaloriesFromMacros ((jsRound (k * rp / 4) : ℤ) : ℚ)
        ((jsRound (k * rc / 4) : ℤ) : ℚ) ((jsRound (k * rf / 9) : ℤ) : ℚ) : ℤ) : ℚ) - k|
      ≤ 17/2 := by
  have hcalc : calculateCaloriesFromMacros ((jsRound (k * rp / 4) : ℤ) : ℚ)
      ((jsRound (k * rc / 4) : ℤ) : ℚ) ((jsRound (k * rf / 9) : ℤ) : ℚ)
      = 4 * jsRound (k * rp / 4) + 4 * jsRound (k * rc / 4) + 9 * jsRound (k * rf / 9) := by
    unfold calculateCaloriesFromMacros
    have harg : ((jsRound (k * rp / 4) : ℤ) : ℚ) * 4 + ((jsRound (k * rc / 4) : ℤ) : ℚ) * 4
        + ((jsRound (k * rf / 9) : ℤ) : ℚ) * 9
        = ((4 * jsRound (k * rp / 4) + 4 * jsRound (k * rc / 4) + 9 * jsRound (k * rf / 9) : ℤ) : ℚ) := by
      push_cast
      ring
    rw [harg, jsRound_intCast]
  rw [hcalc]
  have hp1 := jsRound_le (k * rp / 4)
  have hp2 := lt_jsRound (k * rp / 4)
  have hc1 := jsRound_le (k * rc / 4)
  have hc2 := lt_jsRound (k * rc / 4)
  have hf1 := jsRound_le (k * rf / 9)
  have hf2 := lt_jsRound (k * rf / 9)
  have hk : 4 * (k * rp / 4) + 4 * (k * rc / 4) + 9 * (k * rf / 9) = k := by
    have h : 4 * (k * rp / 4) + 4 * (k * rc / 4) + 9 * (k * rf / 9) = k * (rp + rc + rf) := by
      ring
    rw [h, hsum, mul_one]
  rw [abs_le]
  constructor
  · push_cast
    linarith
  · push_cast
    linarith

/-! ### Streak loop characterisation -/

lemma streakLoop_eq (store : Nat → Option ℚ) (dailyGoal : ℚ) :
    ∀ (j i fuel : Nat), j < fuel →
      (∀ d, i ≤ d → d < i + j → dayQualifies store dailyGoal d = true) →
      dayQualifies store dailyGoal (i + j) = false →
      streakLoop store dailyGoal i fuel = j := by
  intro j
  induction j with
  | zero =>
    intro i fuel hf _ hfail
    cases fuel with
    | zero => omega
    | succ f =>
      rw [streakLoop]
      rw [show i + 0 = i from rfl] at hfail
      rw [hfail]
      simp
  | succ j ih =>
    intro i fuel hf hall hfail
    cases fuel with
    | zero => omega
    | succ f =>
      have hq : dayQualifies store dailyGoal i = true := hall i le_rfl (by omega)
      rw [streakLoop, hq]
      simp only [if_true]
      have htail : streakLoop store dailyGoal (i + 1) f = j := by
        apply ih (i + 1) f (by omega)
        · intro d hd1 hd2
          exact hall d (by omega) (by omega)
        · rw [show i + 1 + j = i + (j + 1) by omega]
          exact hfail
      omega

/-! ### Weekly window partition -/

lemma filter_ge_sum_eq {M : Type} [AddCommMonoid M] (f : DailyLog → M) (t : Int) :
    ∀ (logs : List DailyLog), (∀ l ∈ logs, l.date ≤ t) →
      ((logs.filter (fun l => decide (t - 6 ≤ l.date))).map f).sum =
        ∑ i in Finset.Icc (t - 6) t, ((logs.filter (fun l => decide (l.date = i))).map f).sum := by
  intro logs
  induction logs with
  | nil => intro _; simp
  | cons l rest ih =>
    intro hd
    have hrest := ih (fun x hx => hd x (List.mem_cons_of_mem _ hx))
    have hlt : l.date ≤ t := hd l (List.mem_cons_self _ _)
    have hsplit : ∀ i : ℤ, (((l :: rest).filter (fun x => decide (x.date = i))).map f).sum
        = (if l.date = i then f l else 0) + ((rest.filter (fun x => decide (x.date = i))).map f).sum := by
      intro i
      by_cases h : l.date = i
      · rw [List.filter_cons_of_pos (by simpa using h), if_pos h]
        simp
      · rw [List.filter_cons_of_neg (by simpa using h), if_neg h]
        simp
    by_cases hge : t - 6 ≤ l.date
    · rw [List.filter_cons_of_pos (by simpa using hge)]
      simp only [List.map_cons, List.sum_cons]
      rw [hrest, Finset.sum_congr rfl (fun i _ => hsplit i), Finset.sum_add_distrib]
      have hmem : l.date ∈ Finset.Icc (t - 6) t := Finset.mem_Icc.mpr ⟨hge, hlt⟩
      rw [Finset.sum_ite_eq (Finset.Icc (t - 6) t) l.date (fun _ => f l), if_pos hmem]
    · rw [List.filter_cons_of_neg (by simpa using hge), hrest]
      apply Finset.sum_congr rfl
      intro i hi
      have hne : ¬ (l.date = i) := by
        rcases Finset.mem_Icc.mp hi with ⟨h1, _⟩
        intro he
        exact hge (he ▸ h1)
      rw [List.filter_cons_of_neg (by simpa using hne)]

lemma filter_ge_length_eq (t : Int) (logs : List DailyLog) (hd : ∀ l ∈ logs, l.date ≤ t) :
    (logs.filter (fun l => decide (t - 6 ≤ l.date))).length =
      ∑ i in Finset.Icc (t - 6) t, (logs.filter (fun l => decide (l.date = i))).length := by
  have h := filter_ge_sum_eq (M := ℕ) (fun _ => 1) t logs hd
  rw [sum_map_one] at h
  simp only [sum_map_one] at h
  exact h

/-! ### Entry-array update lemmas -/

lemma sum_map_update_entries (entryId : Nat) (upd : LogEntry → LogEntry) (f : LogEntry → ℚ) :
    ∀ (es : List LogEntry) (a : LogEntry),
      (es.map (fun e => e.id)).Nodup →
      es.find? (fun e => e.id == entryId) = some a →
      ((es.map (fun e => if e.id == entryId then upd e else e)).map f).sum =
        (es.map f).sum + (f (upd a) - f a) := by
  intro es
  induction es with
  | nil => intro a _ h; simp at h
  | cons b tl ih =>
    intro a hnd hfind
    have hmapc : List.map (fun e => e.id) (b :: tl) = b.id :: tl.map (fun e => e.id) := rfl
    rw [hmapc] at hnd
    have hnd' := List.nodup_cons.mp hnd
    by_cases hb : (b.id == entryId) = true
    · have hb2 : (fun e => (e.id == entryId)) b = true := hb
      rw [List.find?_cons_of_pos tl hb2] at hfind
      have hab : a = b := by
        injection hfind with h
        exact h.symm
      have hbid : b.id = entryId := by simpa using hb
      have htl : tl.map (fun e => if e.id == entryId then upd e else e) = tl := by
        have hcong : ∀ e ∈ tl, (if e.id == entryId then upd e else e) = e := by
          intro e he
          have hne : e.id ≠ entryId := by
            intro hcon
            apply hnd'.1
            rw [hbid, ← hcon]
            exact List.mem_map.mpr ⟨e, he, rfl⟩
          simp [hne]
        calc tl.map (fun e => if e.id == entryId then upd e else e) = tl.map id :=
              List.map_congr_left hcong
          _ = tl := List.map_id tl
      subst hab
      simp only [List.map_cons, List.sum_cons, hb, if_true, htl]
      ring
    · have hb2 : ¬ ((fun e => (e.id == entryId)) b = true) := hb
      rw [List.find?_cons_of_neg tl hb2] at hfind
      have := ih a hnd'.2 hfind
      simp only [List.map_cons, List.sum_cons, hb, if_false, Bool.false_eq_true, this]
      ring

lemma sum_map_remove_entries (entryId : Nat) (f : LogEntry → ℚ) :
    ∀ (es : List LogEntry) (a : LogEntry),
      (es.map (fun e => e.id)).Nodup →
      es.find? (fun e => e.id == entryId) = some a →
      ((es.filter (fun e => !(e.id == entryId))).map f).sum = (es.map f).sum - f a := by
  intro es
  induction es with
  | nil => intro a _ h; simp at h
  | cons b tl ih =>
    intro a hnd hfind
    have hmapc : List.map (fun e => e.id) (b :: tl) = b.id :: tl.map (fun e => e.id) := rfl
    rw [hmapc] at hnd
    have hnd' := List.nodup_cons.mp hnd
    by_cases hb : (b.id == entryId) = true
    · have hb2 : (fun e => (e.id == entryId)) b = true := hb
      rw [List.find?_cons_of_pos tl hb2] at hfind
      have hab : a = b := by
        injection hfind with h
        exact h.symm
      have hbid : b.id = entryId := by simpa using hb
      have htl : tl.filter (fun e => !(e.id == entryId)) = tl := by
        rw [List.filter_eq_self]
        intro e he
        have hne : e.id ≠ entryId := by
          intro hcon
          apply hnd'.1
          rw [hbid, ← hcon]
          exact List.mem_map.mpr ⟨e, he, rfl⟩
        simp [hne]
      have hbneg : (fun e => !(e.id == entryId)) b = false := by simp [hb]
      subst hab
      rw [List.filter_cons_of_neg (by simp [hbneg]), htl]
      simp only [List.map_cons, List.sum_cons]
      ring
    · have hb2 : ¬ ((fun e => (e.id == entryId)) b = true) := hb
      rw [List.find?_cons_of_neg tl hb2] at hfind
      have := ih a hnd'.2 hfind
      rw [List.filter_cons_of_pos (by simp [Bool.eq_false_iff] at hb ⊢; simpa using hb)]
      simp only [List.map_cons, List.sum_cons, this]
      ring

lemma map_ids_update (entryId : Nat) (upd : LogEntry → LogEntry)
    (hupd : ∀ e, (upd e).id = e.id) (es : List LogEntry) :
    (es.map (fun e => if e.id == entryId then upd e else e)).map (fun e => e.id) =
      es.map (fun e => e.id) := by
  induction es with
  | nil => rfl
  | cons b tl ih =>
    by_cases hb : (b.id == entryId) = true
    · simp only [List.map_cons, hb, if_true, ih, hupd]
    · simp only [List.map_cons, hb, if_false, Bool.false_eq_true, ih]

/-! ### The ledger invariant -/

/-- The spec's DailyLog invariant: every total equals the sum of the
corresponding field over the day's entries. -/
def goodLog (log : DailyLog) : Prop :=
  log.totalKcal = (log.entries.map (fun e => e.kcal)).sum ∧
  log.totalProtein = (log.entries.map (fun e => e.protein)).sum ∧
  log.totalCarbs = (log.entries.map (fun e => e.carbs)).sum ∧
  log.totalFat = (log.entries.map (fun e => e.fat)).sum

/-- Well-formedness carried through the induction: every log satisfies
the totals invariant, entry ids are distinct within a day, and all ids
are below the fresh-id counter. -/
def wfLogs (s : AppState) : Prop :=
  ∀ log ∈ s.logs, goodLog log ∧ (log.entries.map (fun e => e.id)).Nodup ∧
    ∀ e ∈ log.entries, e.id < s.nextEntryId

lemma wfLogs_logMeal (s : AppState) (h : wfLogs s) (today : Int) (food : Food)
    (time timeSlot : String) : wfLogs (logMeal s today food time timeSlot) := by
  intro log hlog
  unfold logMeal at hlog
  simp only at hlog
  by_cases hany : s.logs.any (fun l => l.date == today) = true
  · rw [if_pos hany] at hlog
    rcases mem_updateFirst _ _ _ _ hlog with hold | ⟨y, hy, rfl⟩
    · rcases h log hold with ⟨hg, hnd, hid⟩
      exact ⟨hg, hnd, fun e he => Nat.lt_succ_of_lt (hid e he)⟩
    · rcases h y hy with ⟨⟨hk, hp, hc, hf⟩, hnd, hid⟩
      refine ⟨⟨?_, ?_, ?_, ?_⟩, ?_, ?_⟩
      · simp [pushEntry, hk]
      · simp [pushEntry, hp]
      · simp [pushEntry, hc]
      · simp [pushEntry, hf]
      · simp only [pushEntry, List.map_append]
        rw [List.nodup_append]
        refine ⟨hnd, List.nodup_singleton _, ?_⟩
        intro a ha hb
        simp only [snapshotEntry, List.map_cons, List.map_nil, List.mem_singleton] at hb
        rcases List.mem_map.mp ha with ⟨e, he, rfl⟩
        exact absurd hb (Nat.ne_of_lt (hid e he))
      · intro e he
        simp only [pushEntry, List.mem_append, List.mem_singleton] at he
        rcases he with he | rfl
        · exact Nat.lt_succ_of_lt (hid e he)
        · exact Nat.lt_succ_self _
  · rw [if_neg hany] at hlog
    rcases List.mem_append.mp hlog with hold | hnew
    · rcases h log hold with ⟨hg, hnd, hid⟩
      exact ⟨hg, hnd, fun e he => Nat.lt_succ_of_lt (hid e he)⟩
    · rcases List.mem_singleton.mp hnew with rfl
      refine ⟨⟨by simp, by simp, by simp, by simp⟩, by simp, ?_⟩
      intro e he
      rcases List.mem_singleton.mp he with rfl
      exact Nat.lt_succ_self _

lemma wfLogs_editEntryRun (s : AppState) (h : wfLogs s) (date : Int) (entryId : Nat)
    (newName : String) (newKcal : ℚ) (newCategory : String) :
    wfLogs (editEntryRun s date entryId newName newKcal newCategory) := by
  unfold editEntryRun
  cases hfl : s.logs.find? (fun l => l.date == date) with
  | none =>
    simp only [editEntry, hfl]
    exact h
  | some log =>
    cases hfe : log.entries.find? (fun e => e.id == entryId) with
    | none =>
      simp only [editEntry, hfl, hfe]
      exact h
    | some entryToEdit =>
      cases hm : estimateMacros newKcal (some newCategory) with
      | none =>
        simp only [editEntry, hfl, hfe, hm]
        exact h
      | some m =>
        simp only [editEntry, hfl, hfe, hm]
        intro log' hlog'
        simp only at hlog'
        rcases mem_updateFirst _ _ _ _ hlog' with hold | ⟨y, _, rfl⟩
        · rcases h log' hold with ⟨hg, hnd, hid⟩
          exact ⟨hg, hnd, hid⟩
        · have hmem : log ∈ s.logs := List.mem_of_find?_eq_some hfl
          rcases h log hmem with ⟨⟨hk, hp, hc, hf⟩, hnd, hid⟩
          set upd : LogEntry → LogEntry := fun e =>
            { e with
                name := newName, kcal := newKcal,
                protein := (m.protein : ℚ), carbs := (m.carbs : ℚ), fat := (m.fat : ℚ) } with hupd
          refine ⟨⟨?_, ?_, ?_, ?_⟩, ?_, ?_⟩
          · have := sum_map_update_entries entryId upd (fun e => e.kcal) log.entries entryToEdit hnd hfe
            simp only [this, hk]
          · have := sum_map_update_entries entryId upd (fun e => e.protein) log.entries entryToEdit hnd hfe
            simp only [this, hp]
          · have := sum_map_update_entries entryId upd (fun e => e.carbs) log.entries entryToEdit hnd hfe
            simp only [this, hc]
          · have := sum_map_update_entries entryId upd (fun e => e.fat) log.entries entryToEdit hnd hfe
            simp only [this, hf]
          · rw [map_ids_update entryId upd (fun e => rfl)]
            exact hnd
          · intro e he
            rcases List.mem_map.mp he with ⟨y', hy', rfl⟩
            by_cases hb : (y'.id == entryId) = true
            · simp only [hb, if_true]
              exact hid y' hy'
            · simp only [hb, if_false, Bool.false_eq_true]
              exact hid y' hy'

lemma wfLogs_deleteEntryRun (s : AppState) (h : wfLogs s) (date : Int) (entryId : Nat) :
    wfLogs (deleteEntryRun s date entryId) := by
  unfold deleteEntryRun
  cases hfl : s.logs.find? (fun l => l.date == date) with
  | none =>
    simp only [deleteEntry, hfl]
    exact h
  | some log =>
    cases hfe : log.entries.find? (fun e => e.id == entryId) with
    | none =>
      simp only [deleteEntry, hfl, hfe]
      exact h
    | some entryToDelete =>
      simp only [deleteEntry, hfl, hfe]
      intro log' hlog'
      simp only at hlog'
      rcases mem_updateFirst _ _ _ _ hlog' with hold | ⟨y, _, rfl⟩
      · exact h log' hold
      · have hmem : log ∈ s.logs := List.mem_of_find?_eq_some hfl
        rcases h log hmem with ⟨⟨hk, hp, hc, hf⟩, hnd, hid⟩
        refine ⟨⟨?_, ?_, ?_, ?_⟩, ?_, ?_⟩
        · have := sum_map_remove_entries entryId (fun e => e.kcal) log.entries entryToDelete hnd hfe
          simp only [this, hk]
        · have := sum_map_remove_entries entryId (fun e => e.protein) log.entries entryToDelete hnd hfe
          simp only [this, hp]
        · have := sum_map_remove_entries entryId (fun e => e.carbs) log.entries entryToDelete hnd hfe
          simp only [this, hc]
        · have := sum_map_remove_entries entryId (fun e => e.fat) log.entries entryToDelete hnd hfe
          simp only [this, hf]
        · exact List.Nodup.sublist (List.Sublist.map _ (List.filter_sublist _)) hnd
        · intro e he
          exact hid e (List.mem_of_mem_filter he)

lemma wf_of_reachable : ∀ s : AppState, Reachable s → wfLogs s := by
  intro s hs
  induction hs with
  | init foods foodCache nextFoodId config => intro log hlog; simp at hlog
  | logMeal today food time timeSlot _ ih => exact wfLogs_logMeal _ ih today food time timeSlot
  | editEntry date entryId newName newKcal newCategory _ ih =>
      exact wfLogs_editEntryRun _ ih date entryId newName newKcal newCategory
  | deleteEntry date entryId _ ih => exact wfLogs_deleteEntryRun _ ih date entryId

/-! ### Demo states used by witnesses -/

def demoFood : Food :=
  { id := 7, name := "Oats", kcal := 150, protein := 5, carbs := 27, fat := 3,
    category := "carb-heavy" }

def demoInit : AppState :=
  { foods := [], foodCache := [], logs := [], nextEntryId := 0, nextFoodId := 0, config := none }

def demoLedgerState : AppState := logMeal demoInit 0 demoFood "08:00" "Morning"

def demoDayLog : DailyLog :=
  { date := 0, entries := [snapshotEntry demoFood "08:00" "Morning" 0],
    totalKcal := demoFood.kcal, totalProtein := demoFood.protein,
    totalCarbs := demoFood.carbs, totalFat := demoFood.fat }

/-! ### Claim C1 -/

/-- C1: for every DailyLog reachable by any sequence of `logMeal`,
`editEntry` and `deleteEntry` operations starting from an empty ledger,
each total field equals the sum of the corresponding field over the day's
entries (kcal, protein, carbs and fat alike). -/
theorem dailyLog_totals_invariant :
    ∀ s : AppState, Reachable s →
      ∀ log ∈ s.logs,
        log.totalKcal = (log.entries.map (fun e => e.kcal)).sum ∧
        log.totalProtein = (log.entries.map (fun e => e.protein)).sum ∧
        log.totalCarbs = (log.entries.map (fun e => e.carbs)).sum ∧
        log.totalFat = (log.entries.map (fun e => e.fat)).sum :=
  fun s hs log hlog => (wf_of_reachable s hs log hlog).1

/-- Witness for C1: the invariant evaluated on the concrete state after
one `logMeal` from the empty ledger. -/
theorem dailyLog_totals_invariant_witness :
    demoDayLog.totalKcal = (demoDayLog.entries.map (fun e => e.kcal)).sum ∧
    demoDayLog.totalProtein = (demoDayLog.entries.map (fun e => e.protein)).sum ∧
    demoDayLog.totalCarbs = (demoDayLog.entries.map (fun e => e.carbs)).sum ∧
    demoDayLog.totalFat = (demoDayLog.entries.map (fun e => e.fat)).sum :=
  dailyLog_totals_invariant demoLedgerState
    (Reachable.logMeal 0 demoFood "08:00" "Morning" (Reachable.init [] [] 0 none))
    demoDayLog
    (by rw [show demoLedgerState.logs = [demoDayLog] from rfl]
        exact List.mem_singleton.mpr rfl)

/-! ### Claim C2 -/

/-- C2: if the entry id is absent from that day's entries (already
deleted, or no log for that day at all), `editEntry` and `deleteEntry`
fail with `EntryNotFound` and leave the store — entries and all four
totals — entirely unchanged. -/
theorem editEntry_deleteEntry_absent_id :
    ∀ (s : AppState) (date : Int) (entryId : Nat) (newName : String) (newKcal : ℚ)
      (newCategory : String),
      (∀ log, s.logs.find? (fun l => l.date == date) = some log →
        log.entries.find? (fun e => e.id == entryId) = none) →
      editEntry s date entryId newName newKcal newCategory = .error .EntryNotFound ∧
      editEntryRun s date entryId newName newKcal newCategory = s ∧
      deleteEntry s date entryId = .error .EntryNotFound ∧
      deleteEntryRun s date entryId = s := by
  intro s date entryId newName newKcal newCategory habs
  cases hfl : s.logs.find? (fun l => l.date == date) with
  | none =>
    refine ⟨?_, ?_, ?_, ?_⟩ <;>
      simp [editEntry, editEntryRun, deleteEntry, deleteEntryRun, hfl]
  | some log =>
    have hfe := habs log hfl
    refine ⟨?_, ?_, ?_, ?_⟩ <;>
      simp [editEntry, editEntryRun, deleteEntry, deleteEntryRun, hfl, hfe]

/-- Witness for C2: a day with one entry (id 0); id 99 is absent, both
operations report `EntryNotFound` and change nothing. -/
theorem editEntry_deleteEntry_absent_id_witness :
    editEntry demoLedgerState 0 99 "x" 1 "mixed" = .error .EntryNotFound ∧
    editEntryRun demoLedgerState 0 99 "x" 1 "mixed" = demoLedgerState ∧
    deleteEntry demoLedgerState 0 99 = .error .EntryNotFound ∧
    deleteEntryRun demoLedgerState 0 99 = demoLedgerState :=
  editEntry_deleteEntry_absent_id demoLedgerState 0 99 "x" 1 "mixed" (by
    intro log hl
    have h1 : demoLedgerState.logs.find? (fun l => l.date == (0 : Int)) = some demoDayLog := rfl
    rw [h1] at hl
    injection hl with h2
    rw [← h2]
    rfl)

/-! ### Claim C3 -/

lemma calculateStreak_eq (store : Nat → Option ℚ) (dailyGoal : ℚ) (j : Nat) (hj : j < 364)
    (hall : ∀ d, 1 ≤ d → d ≤ j → dayQualifies store dailyGoal d = true)
    (hfail : dayQualifies store dailyGoal (j + 1) = false) :
    calculateStreak store dailyGoal = j + (if dayQualifies store dailyGoal 0 then 1 else 0) := by
  have hloop : streakLoop store dailyGoal 1 364 = j := by
    apply streakLoop_eq store dailyGoal j 1 364 hj
    · intro d hd1 hd2
      exact hall d hd1 (by omega)
    · rw [show 1 + j = j + 1 by omega]
      exact hfail
  unfold calculateStreak
  simp only [hloop]
  cases h0 : store 0 with
  | none => simp [dayQualifies, h0]
  | some k =>
    by_cases hle : k ≤ dailyGoal
    · by_cases hpos : 0 < k
      · simp [dayQualifies, h0, hle, hpos, Nat.add_comm]
      · simp [dayQualifies, h0, hle, hpos]
    · simp [dayQualifies, h0, hle]

/-- C3: `calculateStreak(dailyGoal)` counts the consecutive days
scanning backward from yesterday in which a log exists with
`0 < totalKcal ≤ dailyGoal`, stops (without counting) at the first day
breaking the condition, the scan bounded to under a year (364 back-days);
then 1 more is added independently exactly when today's log exists with
`0 < totalKcal ≤ dailyGoal`.  In particular with yesterday at 1800 kcal
and the day before at 2100 kcal against goal 2000 it returns 1 plus
possibly 1 for today. -/
theorem calculateStreak_spec :
    (∀ (store : Nat → Option ℚ) (dailyGoal : ℚ) (j : Nat), j < 364 →
      (∀ d, 1 ≤ d → d ≤ j → dayQualifies store dailyGoal d = true) →
      dayQualifies store dailyGoal (j + 1) = false →
      calculateStreak store dailyGoal = j + (if dayQualifies store dailyGoal 0 then 1 else 0)) ∧
    (∀ store : Nat → Option ℚ, store 1 = some 1800 → store 2 = some 2100 →
      calculateStreak store 2000 = 1 + (if dayQualifies store 2000 0 then 1 else 0)) := by
  constructor
  · intro store dailyGoal j hj hall hfail
    exact calculateStreak_eq store dailyGoal j hj hall hfail
  · intro store h1 h2
    have hq1 : dayQualifies store 2000 1 = true := by
      simp only [dayQualifies, h1, Bool.and_eq_true, decide_eq_true_eq]
      norm_num
    have hq2 : dayQualifies store 2000 2 = false := by
      have hle : ¬ ((2100 : ℚ) ≤ 2000) := by norm_num
      simp [dayQualifies, h2, hle]
    apply calculateStreak_eq store 2000 1 (by omega)
    · intro d hd1 hd2
      have hd : d = 1 := le_antisymm hd2 hd1
      rw [hd]
      exact hq1
    · exact hq2

def demoStreakStore : Nat → Option ℚ :=
  fun i => if i = 1 then some 1800 else if i = 2 then some 2100 else none

/-- Witness for C3: the spec's boundary scenario (yesterday 1800, the day
before 2100, goal 2000, no log today) gives streak 1. -/
theorem calculateStreak_spec_witness : calculateStreak demoStreakStore 2000 = 1 := by
  have h := calculateStreak_spec.2 demoStreakStore rfl rfl
  rw [h]
  rw [show dayQualifies demoStreakStore 2000 0 = false from rfl]
  rfl

/-! ### Claim C4 -/

/-- C4: for each of the four known categories `estimateMacros` returns
`round(totalKcal·p/4)` g protein, `round(totalKcal·c/4)` g carbs and
`round(totalKcal·f/9)` g fat, with (p, c, f) the category's row of the
fixed ratio table; in particular
`estimateMacros 2000 mixed = {protein 150, carbs 200, fat 67}`. -/
theorem estimateMacros_table :
    (∀ k : ℚ, estimateMacros k (some "protein-heavy") =
      some ⟨jsRound (k * 0.4 / 4), jsRound (k * 0.2 / 4), jsRound (k * 0.3 / 9)⟩) ∧
    (∀ k : ℚ, estimateMacros k (some "carb-heavy") =
      some ⟨jsRound (k * 0.15 / 4), jsRound (k * 0.7 / 4), jsRound (k * 0.15 / 9)⟩) ∧
    (∀ k : ℚ, estimateMacros k (some "fat-heavy") =
      some ⟨jsRound (k * 0.1 / 4), jsRound (k * 0.1 / 4), jsRound (k * 0.8 / 9)⟩) ∧
    (∀ k : ℚ, estimateMacros k (some "mixed") =
      some ⟨jsRound (k * 0.3 / 4), jsRound (k * 0.4 / 4), jsRound (k * 0.3 / 9)⟩) ∧
    estimateMacros 2000 (some "mixed") = some ⟨150, 200, 67⟩ := by
  refine ⟨fun k => rfl, fun k => rfl, fun k => rfl, fun k => rfl, ?_⟩
  simp only [estimateMacros, Option.getD, ratios_mixed, Option.map]
  norm_num [jsRound]

/-! ### Claim C5 -/

/-- Counterexample for C5: the unknown category `'salty'` does not fall
back to `'mixed'`: the ratio lookup yields no row and the function
throws (result `none`), instead of returning mixed's estimate. -/
theorem estimateMacros_unknown_category_cex :
    estimateMacros 2000 (some "salty") = none ∧
    estimateMacros 2000 (some "mixed") = some ⟨150, 200, 67⟩ ∧
    estimateMacros 2000 (some "salty") ≠ estimateMacros 2000 (some "mixed") := by
  refine ⟨rfl, ?_, ?_⟩
  · simp only [estimateMacros, Option.getD, ratios_mixed, Option.map]
    norm_num [jsRound]
  · simp [estimateMacros, Option.getD, ratios_mixed, ratios]

/-- C5 amended: only an omitted category argument falls back to
`'mixed'` (the JS default parameter); a category string outside the four
known ones makes `estimateMacros` throw (no result), not fall back. -/
theorem estimateMacros_default_and_unknown :
    (∀ k : ℚ, estimateMacros k none = estimateMacros k (some "mixed")) ∧
    (∀ (k : ℚ) (c : String), c ≠ "protein-heavy" → c ≠ "carb-heavy" → c ≠ "fat-heavy" →
      c ≠ "mixed" → estimateMacros k (some c) = none) := by
  constructor
  · intro k
    rfl
  · intro k c h1 h2 h3 h4
    simp [estimateMacros, ratios, h1, h2, h3, h4]

/-- Witness for C5's amended claim at concrete inputs. -/
theorem estimateMacros_default_and_unknown_witness :
    estimateMacros 2000 none = estimateMacros 2000 (some "mixed") ∧
    estimateMacros 2000 (some "salty") = none :=
  ⟨estimateMacros_default_and_unknown.1 2000,
   estimateMacros_default_and_unknown.2 2000 "salty"
     (by decide) (by decide) (by decide) (by decide)⟩

/-! ### Claim C6 -/

/-- Counterexample for C6: for `protein-heavy` (whose ratio row sums to
0.9, not 1) the calorie round-trip at K = 2000 gives 1803 — a drift of
197 kcal, not a small K-independent drift. -/
theorem roundtrip_drift_unbounded_cex :
    estimateMacros 2000 (some "protein-heavy") = some ⟨200, 100, 67⟩ ∧
    calculateCaloriesFromMacros 200 100 67 = 1803 ∧
    ¬ (|((calculateCaloriesFromMacros ((200 : ℤ) : ℚ) ((100 : ℤ) : ℚ) ((67 : ℤ) : ℚ) : ℤ) : ℚ)
        - 2000| ≤ 17/2) := by
  refine ⟨?_, ?_, ?_⟩
  · simp only [estimateMacros, Option.getD, ratios_protein_heavy, Option.map]
    norm_num [jsRound]
  · norm_num [calculateCaloriesFromMacros, jsRound]
  · have hc : calculateCaloriesFromMacros ((200 : ℤ) : ℚ) ((100 : ℤ) : ℚ) ((67 : ℤ) : ℚ)
        = 1803 := by
      norm_num [calculateCaloriesFromMacros, jsRound]
    rw [hc, show ((1803 : ℤ) : ℚ) = 1803 by norm_num, abs_of_nonpos (by norm_num)]
    norm_num

/-- C6 amended: the round-trip drift is bounded (by 17/2 kcal,
independently of K) for the categories whose ratio row sums to 1 —
carb-heavy, fat-heavy and mixed — and even there it is approximate, not
exact (mixed at 2000 kcal round-trips to 2003); for protein-heavy the
row sums to 0.9 and the deviation grows with K. -/
theorem roundtrip_drift_bounded :
    (∀ (k : ℚ) (cat : String) (m : MacroEstimate), 0 ≤ k →
      (cat = "carb-heavy" ∨ cat = "fat-heavy" ∨ cat = "mixed") →
      estimateMacros k (some cat) = some m →
      |((calculateCaloriesFromMacros (m.protein : ℚ) (m.carbs : ℚ) (m.fat : ℚ) : ℤ) : ℚ) - k|
        ≤ 17/2) ∧
    (calculateCaloriesFromMacros 150 200 67 = 2003 ∧ (2003 : ℤ) ≠ 2000) := by
  constructor
  · intro k cat m _ hcat hm
    rcases hcat with rfl | rfl | rfl
    · simp only [estimateMacros, Option.getD, ratios_carb_heavy, Option.map] at hm
      injection hm with hm2
      subst hm2
      exact roundtrip_bound k 0.15 0.7 0.15 (by norm_num)
    · simp only [estimateMacros, Option.getD, ratios_fat_heavy, Option.map] at hm
      injection hm with hm2
      subst hm2
      exact roundtrip_bound k 0.1 0.1 0.8 (by norm_num)
    · simp only [estimateMacros, Option.getD, ratios_mixed, Option.map] at hm
      injection hm with hm2
      subst hm2
      exact roundtrip_bound k 0.3 0.4 0.3 (by norm_num)
  · constructor
    · norm_num [calculateCaloriesFromMacros, jsRound]
    · decide

/-- Witness for C6's amended claim: the mixed estimate at 2000 kcal
round-trips to within the bound. -/
theorem roundtrip_drift_bounded_witness :
    |((calculateCaloriesFromMacros ((150 : ℤ) : ℚ) ((200 : ℤ) : ℚ) ((67 : ℤ) : ℚ) : ℤ) : ℚ)
      - 2000| ≤ 17/2 := by
  apply roundtrip_drift_bounded.1 2000 "mixed" ⟨150, 200, 67⟩ (by norm_num)
    (Or.inr (Or.inr rfl))
  simp only [estimateMacros, Option.getD, ratios_mixed, Option.map]
  norm_num [jsRound]

/-! ### Claim C7 -/

def demoWeekLogs3 : List DailyLog :=
  [ { date := 4, entries := [], totalKcal := 1000, totalProtein := 0, totalCarbs := 0,
      totalFat := 0 },
    { date := 5, entries := [], totalKcal := 1000, totalProtein := 0, totalCarbs := 0,
      totalFat := 0 },
    { date := 10, entries := [], totalKcal := 1000, totalProtein := 0, totalCarbs := 0,
      totalFat := 0 } ]

def demoWeekLogs : List DailyLog :=
  demoWeekLogs3 ++
    [ { date := 11, entries := [], totalKcal := 700, totalProtein := 0, totalCarbs := 0,
        totalFat := 0 } ]

lemma demoIcc : Finset.Icc (4 : ℤ) 10 = ({4, 5, 6, 7, 8, 9, 10} : Finset ℤ) := by
  ext x
  simp only [Finset.mem_Icc, Finset.mem_insert, Finset.mem_singleton]
  omega

/-- Counterexample for C7: with logs of 1000 kcal on days 4, 5 and 10,
and 700 kcal on day 11, the report at reference date 10 totals 3700 (it
also counts the day-11 log, outside the 7-day window whose sum is 3000)
and averages 925 = 3700/4 (dividing by the number of fetched logs, not
by the 7 days of the window: 3000/7). -/
theorem weeklyReport_window_cex :
    weeklyTotal demoWeekLogs 10 = 3700 ∧
    weeklyAverage demoWeekLogs 10 = 925 ∧
    windowKcal demoWeekLogs 10 = 3000 ∧
    ¬ (weeklyTotal demoWeekLogs 10 = windowKcal demoWeekLogs 10 ∧
       weeklyAverage demoWeekLogs 10 = windowKcal demoWeekLogs 10 / 7) := by
  have hwl : weeklyLogs demoWeekLogs 10 = demoWeekLogs := rfl
  have h1 : weeklyTotal demoWeekLogs 10 = 3700 := by
    rw [weeklyTotal, hwl]
    norm_num [demoWeekLogs, demoWeekLogs3]
  have h2 : weeklyAverage demoWeekLogs 10 = 925 := by
    rw [weeklyAverage, hwl, weeklyTotal, hwl]
    norm_num [demoWeekLogs, demoWeekLogs3]
  have h3 : windowKcal demoWeekLogs 10 = 3000 := by
    rw [windowKcal, show (10 : ℤ) - 6 = 4 by norm_num, demoIcc]
    norm_num [demoWeekLogs, demoWeekLogs3, Finset.sum_insert, Finset.mem_insert,
      Finset.mem_singleton]
  refine ⟨h1, h2, h3, ?_⟩
  rw [h1, h2, h3]
  intro hcon
  have := hcon.1
  norm_num at this

/-- C7 amended: provided no stored log is dated after the reference
date, the report's total equals the 7-day-window sum; the average is
that total divided by the number of stored logs inside the window (0
when there are none), not by 7. -/
theorem weeklyReport_amended :
    ∀ (logs : List DailyLog) (t : Int), (∀ l ∈ logs, l.date ≤ t) →
      weeklyTotal logs t = windowKcal logs t ∧
      weeklyAverage logs t =
        (if windowLogCount logs t = 0 then 0
         else windowKcal logs t / (windowLogCount logs t : ℚ)) := by
  intro logs t hd
  have h1 : weeklyTotal logs t = windowKcal logs t := by
    unfold weeklyTotal weeklyLogs windowKcal
    exact filter_ge_sum_eq (fun l => l.totalKcal) t logs hd
  have h2 : (weeklyLogs logs t).length = windowLogCount logs t := by
    unfold weeklyLogs windowLogCount
    exact filter_ge_length_eq t logs hd
  refine ⟨h1, ?_⟩
  unfold weeklyAverage
  rw [h1, h2]
  by_cases hc : windowLogCount logs t = 0
  · simp [hc]
  · have hpos : 0 < windowLogCount logs t := Nat.pos_of_ne_zero hc
    simp [hc, hpos]

/-- Witness for C7's amended claim on the three-log store with no
future-dated logs. -/
theorem weeklyReport_amended_witness :
    weeklyTotal demoWeekLogs3 10 = windowKcal demoWeekLogs3 10 ∧
    weeklyAverage demoWeekLogs3 10 =
      (if windowLogCount demoWeekLogs3 10 = 0 then 0
       else windowKcal demoWeekLogs3 10 / (windowLogCount demoWeekLogs3 10 : ℚ)) :=
  weeklyReport_amended demoWeekLogs3 10 (by decide)

/-! ### Claim C8 -/

/-- C8: a `learn` call with a name already in the catalog
(case-sensitive) fails with `DuplicateName`, leaves no partial state,
and the in-memory cache still matches the store, containing exactly one
item with that name at its original kcal. -/
theorem createNewFood_duplicate :
    ∀ (s : AppState) (name : String) (kcal k0 : ℚ) (category : String),
      s.foodCache = s.foods →
      (estimateMacros kcal (some category)).isSome = true →
      s.foods.any (fun g => g.name == name) = true →
      (s.foodCache.filter (fun f => f.name == name)).map (fun f => f.kcal) = [k0] →
      createNewFood s name kcal category = .error .DuplicateName ∧
      createNewFoodRun s name kcal category = s ∧
      ((createNewFoodRun s name kcal category).foodCache.filter
        (fun f => f.name == name)).map (fun f => f.kcal) = [k0] ∧
      (createNewFoodRun s name kcal category).foodCache =
        (createNewFoodRun s name kcal category).foods := by
  intro s name kcal k0 category hsync hm hdup hone
  cases hm2 : estimateMacros kcal (some category) with
  | none =>
    rw [hm2] at hm
    simp at hm
  | some m =>
    have herr : createNewFood s name kcal category = .error .DuplicateName := by
      simp only [createNewFood, hm2, saveFood, hdup]
      simp [hdup]
    have hrun : createNewFoodRun s name kcal category = s := by
      simp only [createNewFoodRun, herr]
    exact ⟨herr, hrun, by rw [hrun]; exact hone, by rw [hrun]; exact hsync⟩

def appleFood : Food :=
  { id := 0, name := "Apple", kcal := 95, protein := 4, carbs := 17, fat := 2,
    category := "carb-heavy" }

def demoCatalogState : AppState :=
  { foods := [appleFood], foodCache := [appleFood], logs := [], nextEntryId := 0,
    nextFoodId := 1, config := none }

/-- `demoCatalogState` is exactly the state a successful
`learn('Apple', 95, 'carb-heavy')` leaves behind from an empty catalog. -/
lemma demoCatalogState_eq :
    createNewFoodRun demoInit "Apple" 95 "carb-heavy" = demoCatalogState := by
  have hm : estimateMacros 95 (some "carb-heavy") = some ⟨4, 17, 2⟩ := by
    simp only [estimateMacros, Option.getD, ratios_carb_heavy, Option.map]
    norm_num [jsRound]
  simp only [createNewFoodRun, createNewFood, hm, saveFood, demoInit]
  norm_num [demoCatalogState, appleFood]

/-- Witness for C8: the spec's Apple scenario — the second `learn` of
"Apple" fails with `DuplicateName` and the cache keeps the single Apple
at 95 kcal. -/
theorem createNewFood_duplicate_witness :
    createNewFood demoCatalogState "Apple" 100 "mixed" = .error .DuplicateName ∧
    createNewFoodRun demoCatalogState "Apple" 100 "mixed" = demoCatalogState ∧
    ((createNewFoodRun demoCatalogState "Apple" 100 "mixed").foodCache.filter
      (fun f => f.name == "Apple")).map (fun f => f.kcal) = [(95 : ℚ)] ∧
    (createNewFoodRun demoCatalogState "Apple" 100 "mixed").foodCache =
      (createNewFoodRun demoCatalogState "Apple" 100 "mixed").foods :=
  createNewFood_duplicate demoCatalogState "Apple" 100 (95 : ℚ) "mixed" rfl rfl rfl rfl

/-! ### Claim C9 -/

/-- C9: every LogEntry is a snapshot of the food's
name/kcal/protein/carbs/fat taken at logging time (`logMeal` appends
exactly that snapshot to the day's entries), and catalog mutations
(`editFood`, `deleteFood`) leave every DailyLog — entries and totals —
untouched. -/
theorem logEntry_snapshot_frame :
    ∀ (s : AppState) (today : Int) (food : Food) (time timeSlot : String)
      (fid : Nat) (newName : String) (newKcal : ℚ) (newCategory : String),
      ((snapshotEntry food time timeSlot s.nextEntryId).name = food.name ∧
       (snapshotEntry food time timeSlot s.nextEntryId).kcal = food.kcal ∧
       (snapshotEntry food time timeSlot s.nextEntryId).protein = food.protein ∧
       (snapshotEntry food time timeSlot s.nextEntryId).carbs = food.carbs ∧
       (snapshotEntry food time timeSlot s.nextEntryId).fat = food.fat) ∧
      (((logMeal s today food time timeSlot).logs.find? (fun l => l.date == today)).map
          (fun l => l.entries) =
        some ((((s.logs.find? (fun l => l.date == today)).map (fun l => l.entries)).getD [])
          ++ [snapshotEntry food time timeSlot s.nextEntryId])) ∧
      (editFood s fid newName newKcal newCategory).logs = s.logs ∧
      (deleteFood s fid).logs = s.logs := by
  intro s today food time timeSlot fid newName newKcal newCategory
  refine ⟨⟨rfl, rfl, rfl, rfl, rfl⟩, ?_, ?_, ?_⟩
  · unfold logMeal
    by_cases hany : s.logs.any (fun l => l.date == today) = true
    · simp only [hany, if_true]
      obtain ⟨x, hx⟩ : ∃ x, s.logs.find? (fun l => l.date == today) = some x := by
        cases hfx : s.logs.find? (fun l => l.date == today) with
        | some x => exact ⟨x, rfl⟩
        | none =>
          exfalso
          have hno := List.find?_eq_none.mp hfx
          rcases List.any_eq_true.mp hany with ⟨y, hy, hpy⟩
          exact hno y hy hpy
      have hp : (fun l => l.date == today) x = true :=
        List.find?_some (p := fun (l : DailyLog) => l.date == today) hx
      have hpf : (fun l => l.date == today)
          (pushEntry x (snapshotEntry food time timeSlot s.nextEntryId)) = true := hp
      rw [find?_updateFirst _ _ s.logs x hx hpf, hx]
      simp [pushEntry]
    · have hfalse : s.logs.any (fun l => l.date == today) = false := by
        cases hb : s.logs.any (fun l => l.date == today)
        · rfl
        · exact absurd hb hany
      have hnone : s.logs.find? (fun l => l.date == today) = none :=
        any_false_find?_none _ _ hfalse
      simp only [hfalse, Bool.false_eq_true, if_false]
      rw [find?_append_none _ s.logs _ hnone, hnone]
      simp
  · cases h1 : s.foodCache.find? (fun f => f.id == fid) with
    | none => simp [editFood, h1]
    | some f0 =>
      cases h2 : estimateMacros newKcal (some newCategory) with
      | none => simp [editFood, h1, h2]
      | some m =>
        by_cases h3 : s.foods.any (fun g => g.name == newName && !(g.id == fid)) = true
        · simp [editFood, h1, h2, h3]
        · simp [editFood, h1, h2, h3]
  · cases h1 : s.foodCache.find? (fun f => f.id == fid) with
    | none => simp [deleteFood, h1]
    | some f0 => simp [deleteFood, h1]

/-! ### Claim C10 -/

/-- C10: when no Config document exists, the dashboard, the history list
and the day-detail view all use 2000 kcal as the goal and render exactly
as they would with an explicit 2000-kcal config — a missing config is
never an error on these read paths. -/
theorem missing_config_defaults :
    (∀ log : Option DailyLog,
      showDashboardStats none log = showDashboardStats (some ⟨2000⟩) log ∧
      (showDashboardStats none log).dailyGoal = 2000) ∧
    (∀ logs : List DailyLog, viewHistoryRows logs none = viewHistoryRows logs (some ⟨2000⟩)) ∧
    (∀ log : DailyLog,
      showDayDetailHeader log none = showDayDetailHeader log (some ⟨2000⟩) ∧
      (showDayDetailHeader log none).2.1 = 2000) :=
  ⟨fun log => ⟨rfl, rfl⟩, fun logs => rfl, fun log => ⟨rfl, rfl⟩⟩
